import Mathlib

/-!
# Shallow embedding of `recruiting-github-crawler`

This file embeds the core of `src/github_crawler/github_crawler.py`
(class `DeveloperBase`: `add`, `add_contributors`, `add_stargazers`,
`add_forkers`, `rank_developers`, the `find_developers` loop body) and of
`src/github_crawler/geo_parser.py` (`GeoParser.parse_location`) as
executable Lean definitions, and proves properties of them.

Modelling conventions:
* A GitHub `NamedUser` is a login together with an optional profile; a
  `none` profile models a user whose lazy profile resolution raises
  `UnknownObjectException` when any profile attribute is accessed.
* Paginated streams (`get_contributors()`, `get_stargazers()`,
  `get_forks()`) are lists of `Except GhError _` items; an `.error` item
  models `RateLimitExceededException` raised while fetching that item.
* Python `dict` is an insertion-ordered association list
  (`List (String × _)`), Python `set` of strings is `Finset String`.
* `time.sleep` is not modelled; the pacing value `dt` is modelled exactly
  as computed, and the number of record fetches is counted explicitly.
-/

set_option autoImplicit false

/-- Error raised by the GitHub client while fetching a paginated item:
`RateLimitExceededException` in the source. -/
inductive GhError where
  | rateLimit
deriving DecidableEq, Repr

/-- Exceptions that can propagate out of the `find_developers` loop body. -/
inductive PyError where
  | nameError
deriving DecidableEq, Repr

/-- The scalar profile attributes of a `github.NamedUser.NamedUser`
(the attributes read at `github_crawler.py:62-69`). -/
structure Profile where
  name : Option String
  twitter_username : Option String
  email : Option String
  location : Option String
  company : Option String
  bio : Option String
  blog : Option String
deriving DecidableEq, Repr

/-- A `github.NamedUser.NamedUser`: a login together with lazily resolved
profile data. `profile = none` models an account whose profile resolution
raises `UnknownObjectException` (deleted/renamed account). -/
structure NamedUser where
  login : String
  profile : Option Profile
deriving DecidableEq, Repr

instance {ε α : Type} [DecidableEq ε] [DecidableEq α] : DecidableEq (Except ε α)
  | .ok x, .ok y =>
      if h : x = y then .isTrue (by rw [h]) else .isFalse (by intro hc; cases hc; exact h rfl)
  | .error x, .error y =>
      if h : x = y then .isTrue (by rw [h]) else .isFalse (by intro hc; cases hc; exact h rfl)
  | .ok _, .error _ => .isFalse (by intro hc; cases hc)
  | .error _, .ok _ => .isFalse (by intro hc; cases hc)

/-- A fork object returned by `repo.get_forks()`: its own full name and its
owner (`fork.full_name`, `fork.owner` at `github_crawler.py:234-237`). -/
structure Fork where
  full_name : String
  owner : NamedUser
deriving DecidableEq, Repr

/-- A `github.Repository.Repository` together with the paginated streams the
crawler reads from it. Each stream item either yields a record or raises. -/
structure Repository where
  full_name : String
  contributors : List (Except GhError NamedUser)
  stargazers : List (Except GhError NamedUser)
  forks : List (Except GhError Fork)
deriving DecidableEq, Repr

/-- One value of the `self.developers` dict: the record built at
`github_crawler.py:61-73`. -/
structure DeveloperRecord where
  name : Option String
  github_url : String
  twitter_unsername : Option String
  email : Option String
  location : Option String
  company : Option String
  bio : Option String
  blog : Option String
  contributed_to : Finset String
  stared : Finset String
  forked : Finset String
deriving DecidableEq

/-- Python dict read `d.get(k)`: first binding of `k` in insertion order. -/
def dictGet {α : Type} (l : List (String × α)) (k : String) : Option α :=
  match l with
  | [] => none
  | (k2, v) :: rest => if k2 = k then some v else dictGet rest k

/-- Python dict write `d[k] = v`: replace in place if the key exists,
otherwise append at the end (insertion order). -/
def dictSet {α : Type} (l : List (String × α)) (k : String) (v : α) : List (String × α) :=
  match l with
  | [] => [(k, v)]
  | (k2, v2) :: rest => if k2 = k then (k, v) :: rest else (k2, v2) :: dictSet rest k v

/-- The state of a `DeveloperBase` (constructor at `github_crawler.py:20-26`;
the `file_path` used only for pickling is not modelled). -/
structure DeveloperBase where
  developers : List (String × DeveloperRecord)
  corrupted_user_names : List String
  crawled_projects_for_contributors : Finset String
  crawled_projects_for_stargazers : Finset String
  crawled_projects_for_forkers : Finset String
deriving DecidableEq

/-- `DeveloperBase()` freshly constructed. -/
def emptyBase : DeveloperBase :=
  { developers := []
    corrupted_user_names := []
    crawled_projects_for_contributors := ∅
    crawled_projects_for_stargazers := ∅
    crawled_projects_for_forkers := ∅ }

/-- The fresh record built for an unseen login at `github_crawler.py:61-73`:
scalar fields from the resolved profile, empty relation sets. -/
def freshRecord (k : String) (p : Profile) : DeveloperRecord :=
  { name := p.name
    github_url := "https://github.com/" ++ k
    twitter_unsername := p.twitter_username
    email := p.email
    location := p.location
    company := p.company
    bio := Profile.bio p
    blog := p.blog
    contributed_to := ∅
    stared := ∅
    forked := ∅ }

/-- Lines 76-78 of `github_crawler.py`: union the supplied relation sets into
the record in place. -/
def updateSets (r : DeveloperRecord) (contributed_to forked stared : Finset String) :
    DeveloperRecord :=
  { r with
    contributed_to := r.contributed_to ∪ contributed_to
    forked := r.forked ∪ forked
    stared := r.stared ∪ stared }

/-- `DeveloperBase.add` (`github_crawler.py:28-80`). If the login is already a
key of `developers`, its profile is never resolved and only the relation sets
are unioned; otherwise the profile is resolved to build a fresh record — and
if that resolution raises `UnknownObjectException` (here: `profile = none`)
the login is appended to `corrupted_user_names` and nothing else happens (the
exception is swallowed by the `except` clause at line 79). -/
def DeveloperBase.add (db : DeveloperBase) (u : NamedUser)
    (contributed_to forked stared : Finset String) : DeveloperBase :=
  let k := u.login
  match dictGet db.developers k with
  | some r =>
      { db with developers := dictSet db.developers k (updateSets r contributed_to forked stared) }
  | none =>
      match u.profile with
      | none => { db with corrupted_user_names := db.corrupted_user_names ++ [k] }
      | some p =>
          { db with
            developers :=
              dictSet db.developers k (updateSets (freshRecord k p) contributed_to forked stared) }

/-- `DeveloperBase.get_all_projects` (`github_crawler.py:82-98`). -/
def DeveloperBase.get_all_projects (db : DeveloperBase) : Finset String :=
  db.developers.foldl
    (fun acc p => acc ∪ p.2.contributed_to ∪ p.2.stared ∪ p.2.forked) ∅

/-- Result of running one per-kind crawl operation: the (possibly partially
updated) state, the number of records successfully fetched from the stream,
and either the returned value or the exception that propagated. -/
structure CrawlResult (α : Type) where
  db : DeveloperBase
  fetches : Nat
  out : Except GhError α
deriving DecidableEq

/-- The `for`-loop shared by `add_contributors`/`add_stargazers`
(`github_crawler.py:192-194`, `210-212`): consume the stream item by item,
feeding each user into `step`; an `.error` item aborts the loop with the
mutations made so far kept (a raised exception propagates past a partially
updated `self`). -/
def crawlFold (step : DeveloperBase → NamedUser → DeveloperBase) :
    DeveloperBase → Nat → List (Except GhError NamedUser) →
      DeveloperBase × Nat × Option GhError
  | db, n, [] => (db, n, none)
  | db, n, .error e :: _ => (db, n, some e)
  | db, n, .ok u :: rest => crawlFold step (step db u) (n + 1) rest

/-- `DeveloperBase.add_contributors` (`github_crawler.py:179-195`). -/
def DeveloperBase.add_contributors (db : DeveloperBase) (repo : Repository) :
    CrawlResult Unit :=
  if repo.full_name ∈ db.crawled_projects_for_contributors then
    { db := db, fetches := 0, out := .ok () }
  else
    match crawlFold (fun d u => d.add u {repo.full_name} ∅ ∅) db 0 repo.contributors with
    | (db1, n, some e) => { db := db1, fetches := n, out := .error e }
    | (db1, n, none) =>
        { db :=
            { db1 with
              crawled_projects_for_contributors :=
                insert repo.full_name db1.crawled_projects_for_contributors }
          fetches := n
          out := .ok () }

/-- `DeveloperBase.add_stargazers` (`github_crawler.py:197-213`). -/
def DeveloperBase.add_stargazers (db : DeveloperBase) (repo : Repository) :
    CrawlResult Unit :=
  if repo.full_name ∈ db.crawled_projects_for_stargazers then
    { db := db, fetches := 0, out := .ok () }
  else
    match crawlFold (fun d u => d.add u ∅ ∅ {repo.full_name}) db 0 repo.stargazers with
    | (db1, n, some e) => { db := db1, fetches := n, out := .error e }
    | (db1, n, none) =>
        { db :=
            { db1 with
              crawled_projects_for_stargazers :=
                insert repo.full_name db1.crawled_projects_for_stargazers }
          fetches := n
          out := .ok () }

/-- The `for`-loop of `add_forkers` (`github_crawler.py:233-238`): besides
adding each fork's owner, it accumulates the forks' own full names. -/
def forkFold (repoName : String) :
    DeveloperBase → Nat → List String → List (Except GhError Fork) →
      DeveloperBase × Nat × List String × Option GhError
  | db, n, acc, [] => (db, n, acc, none)
  | db, n, acc, .error e :: _ => (db, n, acc, some e)
  | db, n, acc, .ok fk :: rest =>
      forkFold repoName (db.add fk.owner ∅ {repoName} ∅) (n + 1) (acc ++ [fk.full_name]) rest

/-- `DeveloperBase.add_forkers` (`github_crawler.py:215-241`); on success the
returned value is the list of forked projects. -/
def DeveloperBase.add_forkers (db : DeveloperBase) (repo : Repository) :
    CrawlResult (List String) :=
  if repo.full_name ∈ db.crawled_projects_for_forkers then
    { db := db, fetches := 0, out := .ok [] }
  else
    match forkFold repo.full_name db 0 [] repo.forks with
    | (db1, n, _, some e) => { db := db1, fetches := n, out := .error e }
    | (db1, n, acc, none) =>
        { db :=
            { db1 with
              crawled_projects_for_forkers :=
                insert repo.full_name db1.crawled_projects_for_forkers }
          fetches := n
          out := .ok acc }

/-- One row of the ranked output of `rank_developers`: login (the dict key /
DataFrame index), the record, and the computed score column. -/
abbrev RankedRow := String × DeveloperRecord × Int

/-- The score column (`github_crawler.py:148-152`). -/
def rowScore (sc sf ss : Int) (r : DeveloperRecord) : Int :=
  sc * (r.contributed_to.card : Int) + sf * (r.forked.card : Int) + ss * (r.stared.card : Int)

/-- Insert one row into a list sorted by descending score
(`sort_values(by="score", ascending=False)`). -/
def insertDesc (x : RankedRow) : List RankedRow → List RankedRow
  | [] => [x]
  | y :: ys => if y.2.2 < x.2.2 then x :: y :: ys else y :: insertDesc x ys

/-- Sort rows by descending score. -/
def sortDesc : List RankedRow → List RankedRow
  | [] => []
  | x :: xs => insertDesc x (sortDesc xs)

/-- `pd.isna` on our email column: `None`/`NaN` is na, any string — including
the empty string — is not. -/
def isna (o : Option String) : Bool :=
  o.isNone

/-- `DeveloperBase.rank_developers` (`github_crawler.py:115-153`): build rows
from the `developers` dict in insertion order, optionally drop the rows whose
email is na, compute the score column, sort descending by score. -/
def DeveloperBase.rank_developers (db : DeveloperBase) (sc sf ss : Int)
    (exclude_miussing_email : Bool) : List RankedRow :=
  let rows := db.developers
  let rows := if exclude_miussing_email then rows.filter (fun p => !isna p.2.email) else rows
  sortDesc (rows.map (fun p => (p.1, p.2, rowScore sc sf ss p.2)))

/-- The pacing delay computed at `github_crawler.py:271-279`: zero when rate
limiting is ignored, else `1.01 * n_requests_total / 3600` seconds. -/
def find_developers_dt (ignore_rate_limiting : Bool) (n_requests_total : ℚ) : ℚ :=
  if ignore_rate_limiting then 0.0 else 1.01 * n_requests_total / 3600

/-- The boolean toggles of `find_developers` (`github_crawler.py:243-251`). -/
structure Flags where
  go_recursive : Bool
  ignore_contributors : Bool
  ignore_forkers : Bool
  ignore_stargazers : Bool
  ignore_rate_limiting : Bool
deriving DecidableEq, Repr

/-- Outcome of one iteration of the `while len(projects)` loop of
`find_developers` (`github_crawler.py:288-330`). -/
inductive IterResult where
  /-- The `try` block ran to the end: new frontier, new state, current value
  of the local variable `forked_projects` (`none` = still unbound). -/
  | done (projects : Finset String) (db : DeveloperBase) (fp : Option (List String))
  /-- `RateLimitExceededException` was caught: the handler re-added the popped
  project and slept `wait` seconds (`github_crawler.py:323-330`). -/
  | rateLimited (projects : Finset String) (db : DeveloperBase) (fp : Option (List String))
      (wait : Int)
  /-- An exception the handler does not catch propagated out of
  `find_developers`. -/
  | crashed (e : PyError) (db : DeveloperBase)
deriving DecidableEq

/-- One iteration of the `find_developers` loop (`github_crawler.py:288-330`),
given the project popped from the frontier, the result of `G.get_repo`
(which itself may raise the rate-limit exception), and the reset time and
current time read in the handler. The local variable `forked_projects` enters
as `fp` (`none` when it has never been assigned: reading it then raises
`NameError`, which the handler does not catch). -/
def loopIter (flags : Flags) (projects0 : Finset String) (db : DeveloperBase)
    (fp : Option (List String)) (project : String)
    (fetchRepo : Except GhError Repository) (reset_time now : Int) : IterResult :=
  let projects := projects0.erase project
  match fetchRepo with
  | .error _ => .rateLimited (insert project projects) db fp (reset_time - now + 10)
  | .ok repo =>
    let s1 : CrawlResult Unit :=
      if flags.ignore_contributors then { db := db, fetches := 0, out := .ok () }
      else db.add_contributors repo
    match s1.out with
    | .error _ => .rateLimited (insert project projects) s1.db fp (reset_time - now + 10)
    | .ok _ =>
      let s2 : CrawlResult Unit :=
        if flags.ignore_stargazers then { db := s1.db, fetches := 0, out := .ok () }
        else s1.db.add_stargazers repo
      match s2.out with
      | .error _ => .rateLimited (insert project projects) s2.db fp (reset_time - now + 10)
      | .ok _ =>
        let s3 : CrawlResult (List String) :=
          if flags.ignore_forkers then { db := s2.db, fetches := 0, out := .ok [] }
          else s2.db.add_forkers repo
        match s3.out with
        | .error _ => .rateLimited (insert project projects) s3.db fp (reset_time - now + 10)
        | .ok forked =>
          let fp2 := if flags.ignore_forkers then fp else some forked
          if flags.go_recursive then
            match fp2 with
            | none => .crashed .nameError s3.db
            | some l => .done (projects ∪ l.toFinset) s3.db fp2
          else .done projects s3.db fp2

/-- One row of the gazetteer DataFrame loaded in `GeoParser.__init__`
(`geo_parser.py:9-15`, columns `city`, `city_ascii`, `country`). -/
structure CityRow where
  city : String
  city_ascii : String
  country : String
deriving DecidableEq, Repr

/-- Helper for `uniqueList`: skip values already seen. -/
def uniqueAux (seen : List String) : List String → List String
  | [] => []
  | x :: xs => if x ∈ seen then uniqueAux seen xs else x :: uniqueAux (x :: seen) xs

/-- `unique().tolist()` on a pandas column: deduplicate keeping the first
occurrence, in order. -/
def uniqueList (l : List String) : List String :=
  uniqueAux [] l

/-- Helper for `dropDupCityCountry`: skip (city, country) pairs already
seen. -/
def dropDupAux (seen : List (String × String)) : List CityRow → List CityRow
  | [] => []
  | r :: rest =>
      if (r.city, r.country) ∈ seen then dropDupAux seen rest
      else r :: dropDupAux ((r.city, r.country) :: seen) rest

/-- `drop_duplicates(subset=["city", "country"])`: keep the first row for
each (city, country) pair, in order. -/
def dropDupCityCountry (l : List CityRow) : List CityRow :=
  dropDupAux [] l

/-- Python `str.lower()` (as used on the gazetteer columns and tokens),
modelled charwise over the character list of the string. -/
def pyLower (s : String) : String :=
  (s.data.map Char.toLower).asString

/-- Python `str.strip()`: drop leading and trailing whitespace. -/
def pyStrip (s : String) : String :=
  ((s.data.dropWhile Char.isWhitespace).reverse.dropWhile Char.isWhitespace).reverse.asString

/-- Python `str.split(",")` over a character list: split at every comma,
keeping empty pieces (so the result is always non-empty). -/
def splitComma (cur : List Char) : List Char → List (List Char)
  | [] => [cur.reverse]
  | c :: rest =>
      if c = ',' then cur.reverse :: splitComma [] rest
      else splitComma (c :: cur) rest

/-- `GeoParser.__init__` (`geo_parser.py:8-15`): lowercase the three columns
and drop duplicate (city, country) rows. -/
def prepGazetteer (rows : List CityRow) : List CityRow :=
  dropDupCityCountry
    (rows.map (fun r => ⟨pyLower r.city, pyLower r.city_ascii, pyLower r.country⟩))

/-- `[loc.strip().lower() for loc in location.split(",")]`
(`geo_parser.py:30`). -/
def splitLocs (location : String) : List String :=
  (splitComma [] location.data).map (fun cs => pyLower (pyStrip cs.asString))

/-- The rows whose `city` column equals one of the input tokens: the mask
built at `geo_parser.py:33-36`. -/
def cityMatchRows (df : List CityRow) (locs : List String) : List CityRow :=
  df.filter (fun r => decide (r.city ∈ locs))

/-- The rows whose `country` column equals one of the input tokens: the mask
built at `geo_parser.py:40-42`. -/
def countryMatchRows (df : List CityRow) (locs : List String) : List CityRow :=
  df.filter (fun r => decide (r.country ∈ locs))

/-- `GeoParser.parse_location` (`geo_parser.py:17-51`), over a prepared
gazetteer `df`. A non-string argument is modelled as `none` and yields two
empty lists (`geo_parser.py:27-28`). -/
def parse_location (df : List CityRow) (location : Option String) :
    List String × List String :=
  match location with
  | none => ([], [])
  | some location =>
    let locs := splitLocs location
    let estimated_cities := uniqueList ((cityMatchRows df locs).map (fun r => r.city_ascii))
    let estimated_countries := uniqueList ((countryMatchRows df locs).map (fun r => r.country))
    let estimated_countries :=
      if estimated_countries.length = 0 ∧ estimated_cities.length > 0 then
        uniqueList
          ((df.filter (fun r => decide (r.city ∈ estimated_cities))).map (fun r => r.country))
      else estimated_countries
    (estimated_countries, estimated_cities)

/-! ## Helper lemmas -/

theorem dictGet_dictSet_self {α : Type} (l : List (String × α)) (k : String) (v : α) :
    dictGet (dictSet l k v) k = some v := by
  induction l with
  | nil => simp [dictGet, dictSet]
  | cons hd tl ih =>
      by_cases h : hd.1 = k
      · simp [dictGet, dictSet, h]
      · simp [dictGet, dictSet, h, ih]

theorem add_eq_of_mem (db : DeveloperBase) (u : NamedUser)
    (c f s : Finset String) (r : DeveloperRecord)
    (h : dictGet db.developers u.login = some r) :
    db.add u c f s =
      { db with developers := dictSet db.developers u.login (updateSets r c f s) } := by
  unfold DeveloperBase.add
  simp only [h]

theorem add_eq_of_new (db : DeveloperBase) (u : NamedUser) (p : Profile)
    (c f s : Finset String)
    (habs : dictGet db.developers u.login = none) (hp : u.profile = some p) :
    db.add u c f s =
      { db with
        developers :=
          dictSet db.developers u.login (updateSets (freshRecord u.login p) c f s) } := by
  unfold DeveloperBase.add
  simp only [habs, hp]

theorem dictGet_add_mem (db : DeveloperBase) (u : NamedUser)
    (c f s : Finset String) (r : DeveloperRecord)
    (h : dictGet db.developers u.login = some r) :
    dictGet (db.add u c f s).developers u.login = some (updateSets r c f s) := by
  rw [add_eq_of_mem db u c f s r h]
  exact dictGet_dictSet_self _ _ _

theorem add_crawled_eq (db : DeveloperBase) (u : NamedUser) (c f s : Finset String) :
    (db.add u c f s).crawled_projects_for_contributors =
        db.crawled_projects_for_contributors ∧
      (db.add u c f s).crawled_projects_for_stargazers =
        db.crawled_projects_for_stargazers ∧
      (db.add u c f s).crawled_projects_for_forkers = db.crawled_projects_for_forkers := by
  unfold DeveloperBase.add
  cases h : dictGet db.developers u.login with
  | some r => simp [h]
  | none => cases hp : u.profile <;> simp [h, hp]

theorem crawlFold_crawled_eq (step : DeveloperBase → NamedUser → DeveloperBase)
    (hstep : ∀ d u,
      (step d u).crawled_projects_for_contributors = d.crawled_projects_for_contributors ∧
        (step d u).crawled_projects_for_stargazers = d.crawled_projects_for_stargazers ∧
        (step d u).crawled_projects_for_forkers = d.crawled_projects_for_forkers)
    (items : List (Except GhError NamedUser)) :
    ∀ db n,
      (crawlFold step db n items).1.crawled_projects_for_contributors =
          db.crawled_projects_for_contributors ∧
        (crawlFold step db n items).1.crawled_projects_for_stargazers =
          db.crawled_projects_for_stargazers ∧
        (crawlFold step db n items).1.crawled_projects_for_forkers =
          db.crawled_projects_for_forkers := by
  induction items with
  | nil => intro db n; simp [crawlFold]
  | cons hd tl ih =>
      intro db n
      cases hd with
      | error e => simp [crawlFold]
      | ok u =>
          obtain ⟨h1, h2, h3⟩ := hstep db u
          obtain ⟨g1, g2, g3⟩ := ih (step db u) (n + 1)
          exact ⟨by rw [crawlFold, g1, h1], by rw [crawlFold, g2, h2], by rw [crawlFold, g3, h3]⟩

theorem crawlFold_none_all_ok (step : DeveloperBase → NamedUser → DeveloperBase)
    (items : List (Except GhError NamedUser)) :
    ∀ db n, (crawlFold step db n items).2.2 = none →
      ∀ it ∈ items, ∃ u, it = Except.ok u := by
  induction items with
  | nil => intro db n _ it hit; cases hit
  | cons hd tl ih =>
      intro db n hnone it hit
      cases hd with
      | error e => rw [crawlFold] at hnone; cases hnone
      | ok u =>
          rw [crawlFold] at hnone
          rcases List.mem_cons.mp hit with rfl | hmem
          · exact ⟨u, rfl⟩
          · exact ih (step db u) (n + 1) hnone it hmem

theorem forkFold_crawled_eq (repoName : String) (items : List (Except GhError Fork)) :
    ∀ db n acc,
      (forkFold repoName db n acc items).1.crawled_projects_for_contributors =
          db.crawled_projects_for_contributors ∧
        (forkFold repoName db n acc items).1.crawled_projects_for_stargazers =
          db.crawled_projects_for_stargazers ∧
        (forkFold repoName db n acc items).1.crawled_projects_for_forkers =
          db.crawled_projects_for_forkers := by
  induction items with
  | nil => intro db n acc; simp [forkFold]
  | cons hd tl ih =>
      intro db n acc
      cases hd with
      | error e => simp [forkFold]
      | ok fk =>
          obtain ⟨h1, h2, h3⟩ := add_crawled_eq db fk.owner ∅ {repoName} ∅
          obtain ⟨g1, g2, g3⟩ := ih (db.add fk.owner ∅ {repoName} ∅) (n + 1) (acc ++ [fk.full_name])
          exact ⟨by rw [forkFold, g1, h1], by rw [forkFold, g2, h2], by rw [forkFold, g3, h3]⟩

theorem forkFold_none_all_ok (repoName : String) (items : List (Except GhError Fork)) :
    ∀ db n acc, (forkFold repoName db n acc items).2.2.2 = none →
      ∀ it ∈ items, ∃ fk, it = Except.ok fk := by
  induction items with
  | nil => intro db n acc _ it hit; cases hit
  | cons hd tl ih =>
      intro db n acc hnone it hit
      cases hd with
      | error e => rw [forkFold] at hnone; cases hnone
      | ok fk =>
          rw [forkFold] at hnone
          rcases List.mem_cons.mp hit with rfl | hmem
          · exact ⟨fk, rfl⟩
          · exact ih (db.add fk.owner ∅ {repoName} ∅) (n + 1) (acc ++ [fk.full_name]) hnone it hmem

theorem mem_uniqueAux (a : String) (l : List String) :
    ∀ seen, a ∈ uniqueAux seen l ↔ a ∈ l ∧ a ∉ seen := by
  induction l with
  | nil => intro seen; simp [uniqueAux]
  | cons x xs ih =>
      intro seen
      by_cases hx : x ∈ seen
      · rw [uniqueAux, if_pos hx, ih seen]
        simp only [List.mem_cons]
        constructor
        · rintro ⟨h1, h2⟩; exact ⟨Or.inr h1, h2⟩
        · rintro ⟨rfl | h1, h2⟩
          · exact absurd hx h2
          · exact ⟨h1, h2⟩
      · rw [uniqueAux, if_neg hx]
        simp only [List.mem_cons, ih (x :: seen)]
        by_cases hax : a = x
        · subst hax; simp [hx]
        · simp [hax]

theorem mem_uniqueList (a : String) (l : List String) : a ∈ uniqueList l ↔ a ∈ l := by
  rw [uniqueList, mem_uniqueAux]
  simp

theorem uniqueList_nil_iff (l : List String) : uniqueList l = [] ↔ l = [] := by
  cases l with
  | nil => simp [uniqueList, uniqueAux]
  | cons x xs => simp [uniqueList, uniqueAux]

theorem mem_insertDesc (a x : RankedRow) (l : List RankedRow) :
    a ∈ insertDesc x l ↔ a = x ∨ a ∈ l := by
  induction l with
  | nil => simp [insertDesc]
  | cons y ys ih =>
      rw [insertDesc]
      by_cases h : y.2.2 < x.2.2
      · simp [h]
      · rw [if_neg h]
        simp only [List.mem_cons, ih]
        tauto

theorem mem_sortDesc (a : RankedRow) (l : List RankedRow) : a ∈ sortDesc l ↔ a ∈ l := by
  induction l with
  | nil => simp [sortDesc]
  | cons x xs ih =>
      rw [sortDesc, mem_insertDesc]
      simp [ih]

/-! ## Concrete fixtures used by counterexamples and witnesses -/

def profAlice : Profile :=
  ⟨some "Alice", none, none, none, none, none, none⟩

def profAliceLater : Profile :=
  ⟨some "Bob", some "alice_tw", some "alice@example.org", some "Berlin", some "ACME",
    some "likes compilers", some "https://alice.example.org"⟩

def userAlice : NamedUser := ⟨"alice", some profAlice⟩

/-- The same login fetched again later, now carrying different scalar
profile values. -/
def userAliceLater : NamedUser := ⟨"alice", some profAliceLater⟩

/-- The record stored for `userAlice` after `emptyBase.add userAlice ∅ ∅ ∅`. -/
def aliceRec : DeveloperRecord := updateSets (freshRecord "alice" profAlice) ∅ ∅ ∅

/-! ## Claims -/

/-- C1, counterexample: adding the same login a second time does NOT
overwrite the scalar profile fields with the values of the latest call.
After adding `userAlice` (name "Alice", no email) and then `userAliceLater`
(same login, name "Bob", email present), the stored record still carries
name "Alice" and no email, although the latest call supplied name "Bob" and
an email. -/
theorem add_overwrite_scalars_cex :
    (dictGet ((emptyBase.add userAlice ∅ ∅ ∅).add userAliceLater ∅ ∅ ∅).developers
        "alice").map (fun r => (r.name, r.email)) = some (some "Alice", none) ∧
      profAliceLater.name = some "Bob" ∧
      profAliceLater.email = some "alice@example.org" :=
  ⟨by decide, rfl, rfl⟩

/-- C1, amended: for a login already present in the DeveloperBase, a
subsequent `add` with the same login unions the three relation sets into the
record but leaves every scalar profile field (name, social handle, email,
location, company, bio, blog URL) unchanged from the first successful add —
the values supplied by the latest call are ignored. -/
theorem add_same_login_keeps_first_scalars (db : DeveloperBase) (u : NamedUser)
    (c f s : Finset String) (r : DeveloperRecord)
    (h : dictGet db.developers u.login = some r) :
    dictGet (db.add u c f s).developers u.login =
      some
        { r with
          contributed_to := r.contributed_to ∪ c
          forked := r.forked ∪ f
          stared := r.stared ∪ s } :=
  dictGet_add_mem db u c f s r h

theorem add_same_login_keeps_first_scalars_witness :
    dictGet ((emptyBase.add userAlice ∅ ∅ ∅).add userAliceLater {"mlflow/mlflow"} ∅ ∅).developers
        userAliceLater.login =
      some
        { aliceRec with
          contributed_to := aliceRec.contributed_to ∪ {"mlflow/mlflow"}
          forked := aliceRec.forked ∪ ∅
          stared := aliceRec.stared ∪ ∅ } :=
  add_same_login_keeps_first_scalars (emptyBase.add userAlice ∅ ∅ ∅) userAliceLater
    {"mlflow/mlflow"} ∅ ∅ aliceRec (by decide)

/-- C5: adding the same (resolvable, previously unseen) login first with
relation sets A = (a1, a2, a3) and then with B = (b1, b2, b3) leaves the
stored set of each relation kind equal to the union A ∪ B of that kind. -/
theorem add_twice_union_relations (db : DeveloperBase) (u : NamedUser) (p : Profile)
    (a1 a2 a3 b1 b2 b3 : Finset String)
    (habs : dictGet db.developers u.login = none) (hp : u.profile = some p) :
    ∃ r, dictGet ((db.add u a1 a2 a3).add u b1 b2 b3).developers u.login = some r ∧
      r.contributed_to = a1 ∪ b1 ∧ r.forked = a2 ∪ b2 ∧ r.stared = a3 ∪ b3 := by
  have h1 : dictGet (db.add u a1 a2 a3).developers u.login =
      some (updateSets (freshRecord u.login p) a1 a2 a3) := by
    rw [add_eq_of_new db u p a1 a2 a3 habs hp]
    exact dictGet_dictSet_self _ _ _
  refine ⟨updateSets (updateSets (freshRecord u.login p) a1 a2 a3) b1 b2 b3,
    dictGet_add_mem _ u b1 b2 b3 _ h1, ?_, ?_, ?_⟩ <;>
    simp [updateSets, freshRecord]

theorem add_twice_union_relations_witness :
    ∃ r,
      dictGet ((emptyBase.add userAlice {"p1"} ∅ ∅).add userAlice {"p2"} {"q"} ∅).developers
          userAlice.login = some r ∧
        r.contributed_to = {"p1"} ∪ {"p2"} ∧ r.forked = ∅ ∪ {"q"} ∧
        r.stared = (∅ : Finset String) ∪ ∅ :=
  add_twice_union_relations emptyBase userAlice profAlice {"p1"} ∅ ∅ {"p2"} {"q"} ∅ rfl rfl

/-- C6: if the login is not yet a key of `developers` and resolving the
profile raises `UnknownObjectException` (modelled as `profile = none`), then
`add` appends the login to the corrupted-entries list, creates and mutates no
developer record, and returns normally (the exception is swallowed: `add` is
a total function into `DeveloperBase`). -/
theorem add_unknown_user_swallowed (db : DeveloperBase) (u : NamedUser)
    (c f s : Finset String)
    (habs : dictGet db.developers u.login = none) (hp : u.profile = none) :
    db.add u c f s =
      { db with corrupted_user_names := db.corrupted_user_names ++ [u.login] } := by
  unfold DeveloperBase.add
  simp only [habs, hp]

theorem add_unknown_user_swallowed_witness :
    emptyBase.add ⟨"ghost", none⟩ ∅ ∅ ∅ =
      { emptyBase with corrupted_user_names := emptyBase.corrupted_user_names ++ ["ghost"] } :=
  add_unknown_user_swallowed emptyBase ⟨"ghost", none⟩ ∅ ∅ ∅ rfl rfl

/-- A base whose three completion ledgers already contain `"r/n"`. -/
def doneBase : DeveloperBase :=
  { developers := []
    corrupted_user_names := []
    crawled_projects_for_contributors := {"r/n"}
    crawled_projects_for_stargazers := {"r/n"}
    crawled_projects_for_forkers := {"r/n"} }

/-- A repository named `"r/n"` whose streams do hold records. -/
def repoRN : Repository :=
  ⟨"r/n", [.ok userAlice], [.ok userAlice], [.ok ⟨"f/x", userAlice⟩]⟩

/-- C3: when a repository's full name is already in a relation kind's
completion set, the corresponding per-kind crawl operation fetches zero
records and returns the state unchanged (`add_forkers` additionally returns
the empty list). -/
theorem completed_repo_not_refetched (db : DeveloperBase) (repo : Repository) :
    (repo.full_name ∈ db.crawled_projects_for_contributors →
        db.add_contributors repo = { db := db, fetches := 0, out := .ok () }) ∧
      (repo.full_name ∈ db.crawled_projects_for_stargazers →
        db.add_stargazers repo = { db := db, fetches := 0, out := .ok () }) ∧
      (repo.full_name ∈ db.crawled_projects_for_forkers →
        db.add_forkers repo = { db := db, fetches := 0, out := .ok [] }) := by
  refine ⟨fun h => ?_, fun h => ?_, fun h => ?_⟩
  · unfold DeveloperBase.add_contributors
    rw [if_pos h]
  · unfold DeveloperBase.add_stargazers
    rw [if_pos h]
  · unfold DeveloperBase.add_forkers
    rw [if_pos h]

theorem completed_repo_not_refetched_witness :
    doneBase.add_contributors repoRN = { db := doneBase, fetches := 0, out := .ok () } ∧
      doneBase.add_stargazers repoRN = { db := doneBase, fetches := 0, out := .ok () } ∧
      doneBase.add_forkers repoRN = { db := doneBase, fetches := 0, out := .ok [] } :=
  ⟨(completed_repo_not_refetched doneBase repoRN).1 (by decide),
    (completed_repo_not_refetched doneBase repoRN).2.1 (by decide),
    (completed_repo_not_refetched doneBase repoRN).2.2 (by decide)⟩

/-- C2: per relation kind, (i) if the per-kind crawl operation is
interrupted by an exception mid-iteration, the corresponding completion set
is unchanged in the resulting state, and (ii) a repository enters a
completion set it was not already in only when the operation succeeded, which
requires every record of that stream to have been fetched and added
successfully. -/
theorem completion_set_only_after_success (db : DeveloperBase) (repo : Repository) :
    (∀ e, (db.add_contributors repo).out = .error e →
        (db.add_contributors repo).db.crawled_projects_for_contributors =
          db.crawled_projects_for_contributors) ∧
      (∀ e, (db.add_stargazers repo).out = .error e →
        (db.add_stargazers repo).db.crawled_projects_for_stargazers =
          db.crawled_projects_for_stargazers) ∧
      (∀ e, (db.add_forkers repo).out = .error e →
        (db.add_forkers repo).db.crawled_projects_for_forkers =
          db.crawled_projects_for_forkers) ∧
      (repo.full_name ∉ db.crawled_projects_for_contributors →
        repo.full_name ∈ (db.add_contributors repo).db.crawled_projects_for_contributors →
        (db.add_contributors repo).out = .ok () ∧
          ∀ it ∈ repo.contributors, ∃ u, it = Except.ok u) ∧
      (repo.full_name ∉ db.crawled_projects_for_stargazers →
        repo.full_name ∈ (db.add_stargazers repo).db.crawled_projects_for_stargazers →
        (db.add_stargazers repo).out = .ok () ∧
          ∀ it ∈ repo.stargazers, ∃ u, it = Except.ok u) ∧
      (repo.full_name ∉ db.crawled_projects_for_forkers →
        repo.full_name ∈ (db.add_forkers repo).db.crawled_projects_for_forkers →
        (∃ l, (db.add_forkers repo).out = .ok l) ∧
          ∀ it ∈ repo.forks, ∃ fk, it = Except.ok fk) := by
  have hcc := crawlFold_crawled_eq (fun d u => d.add u {repo.full_name} ∅ ∅)
    (fun d u => add_crawled_eq d u {repo.full_name} ∅ ∅) repo.contributors db 0
  have hcs := crawlFold_crawled_eq (fun d u => d.add u ∅ ∅ {repo.full_name})
    (fun d u => add_crawled_eq d u ∅ ∅ {repo.full_name}) repo.stargazers db 0
  have hcf2 := forkFold_crawled_eq repo.full_name repo.forks db 0 []
  refine ⟨?_, ?_, ?_, ?_, ?_, ?_⟩
  · intro e he
    by_cases hmem : repo.full_name ∈ db.crawled_projects_for_contributors
    · simp only [DeveloperBase.add_contributors, if_pos hmem] at he
      cases he
    · rcases hcf : crawlFold (fun d u => d.add u {repo.full_name} ∅ ∅) db 0 repo.contributors
        with ⟨cdb, cn, coe⟩
      rw [hcf] at hcc
      cases coe with
      | none =>
          simp only [DeveloperBase.add_contributors, if_neg hmem, hcf] at he
          cases he
      | some e2 =>
          simp only [DeveloperBase.add_contributors, if_neg hmem, hcf]
          exact hcc.1
  · intro e he
    by_cases hmem : repo.full_name ∈ db.crawled_projects_for_stargazers
    · simp only [DeveloperBase.add_stargazers, if_pos hmem] at he
      cases he
    · rcases hcf : crawlFold (fun d u => d.add u ∅ ∅ {repo.full_name}) db 0 repo.stargazers
        with ⟨cdb, cn, coe⟩
      rw [hcf] at hcs
      cases coe with
      | none =>
          simp only [DeveloperBase.add_stargazers, if_neg hmem, hcf] at he
          cases he
      | some e2 =>
          simp only [DeveloperBase.add_stargazers, if_neg hmem, hcf]
          exact hcs.2.1
  · intro e he
    by_cases hmem : repo.full_name ∈ db.crawled_projects_for_forkers
    · simp only [DeveloperBase.add_forkers, if_pos hmem] at he
      cases he
    · rcases hcf : forkFold repo.full_name db 0 [] repo.forks with ⟨fdb, fn, facc, foe⟩
      rw [hcf] at hcf2
      cases foe with
      | none =>
          simp only [DeveloperBase.add_forkers, if_neg hmem, hcf] at he
          cases he
      | some e2 =>
          simp only [DeveloperBase.add_forkers, if_neg hmem, hcf]
          exact hcf2.2.2
  · intro hmem hin
    rcases hcf : crawlFold (fun d u => d.add u {repo.full_name} ∅ ∅) db 0 repo.contributors
      with ⟨cdb, cn, coe⟩
    rw [hcf] at hcc
    cases coe with
    | some e2 =>
        simp only [DeveloperBase.add_contributors, if_neg hmem, hcf] at hin
        rw [hcc.1] at hin
        exact absurd hin hmem
    | none =>
        constructor
        · simp only [DeveloperBase.add_contributors, if_neg hmem, hcf]
        · exact crawlFold_none_all_ok _ repo.contributors db 0 (by rw [hcf])
  · intro hmem hin
    rcases hcf : crawlFold (fun d u => d.add u ∅ ∅ {repo.full_name}) db 0 repo.stargazers
      with ⟨cdb, cn, coe⟩
    rw [hcf] at hcs
    cases coe with
    | some e2 =>
        simp only [DeveloperBase.add_stargazers, if_neg hmem, hcf] at hin
        rw [hcs.2.1] at hin
        exact absurd hin hmem
    | none =>
        constructor
        · simp only [DeveloperBase.add_stargazers, if_neg hmem, hcf]
        · exact crawlFold_none_all_ok _ repo.stargazers db 0 (by rw [hcf])
  · intro hmem hin
    rcases hcf : forkFold repo.full_name db 0 [] repo.forks with ⟨fdb, fn, facc, foe⟩
    rw [hcf] at hcf2
    cases foe with
    | some e2 =>
        simp only [DeveloperBase.add_forkers, if_neg hmem, hcf] at hin
        rw [hcf2.2.2] at hin
        exact absurd hin hmem
    | none =>
        constructor
        · exact ⟨facc, by simp only [DeveloperBase.add_forkers, if_neg hmem, hcf]⟩
        · exact forkFold_none_all_ok _ repo.forks db 0 [] (by rw [hcf])

theorem completion_set_only_after_success_witness :
    ((emptyBase.add_contributors ⟨"r/n", [.error .rateLimit], [], []⟩).db.crawled_projects_for_contributors =
        emptyBase.crawled_projects_for_contributors) ∧
      ((emptyBase.add_forkers ⟨"r/n", [], [], [.error .rateLimit]⟩).db.crawled_projects_for_forkers =
        emptyBase.crawled_projects_for_forkers) ∧
      ((emptyBase.add_contributors ⟨"r/n", [.ok userAlice], [], []⟩).out = .ok () ∧
        ∀ it ∈ [Except.ok (ε := GhError) userAlice], ∃ u, it = Except.ok u) :=
  ⟨(completion_set_only_after_success emptyBase ⟨"r/n", [.error .rateLimit], [], []⟩).1
      .rateLimit (by decide),
    (completion_set_only_after_success emptyBase ⟨"r/n", [], [], [.error .rateLimit]⟩).2.2.1
      .rateLimit (by decide),
    (completion_set_only_after_success emptyBase ⟨"r/n", [.ok userAlice], [], []⟩).2.2.2.1
      (by decide) (by decide)⟩

/-- C4: whenever an iteration of the `find_developers` loop ends in the
rate-limit handler, the popped project is back in the frontier when the crawl
suspends, and the suspension lasts `reset_time - now + 10` seconds; the
preserved frontier entry means the repository is retried by a later
iteration (the loop runs while the frontier is non-empty) instead of being
dropped. -/
theorem rate_limit_preserves_project (flags : Flags) (projects0 : Finset String)
    (db : DeveloperBase) (fp : Option (List String)) (project : String)
    (fetchRepo : Except GhError Repository) (reset_time now : Int)
    (projects2 : Finset String) (db2 : DeveloperBase) (fp2 : Option (List String)) (wait : Int)
    (h : loopIter flags projects0 db fp project fetchRepo reset_time now =
      .rateLimited projects2 db2 fp2 wait) :
    project ∈ projects2 ∧ wait = reset_time - now + 10 := by
  simp only [loopIter] at h
  repeat' split at h
  all_goals
    first
      | exact IterResult.noConfusion h
      | · injection h with h1 h2 h3 h4
          subst h1
          subst h4
          exact ⟨Finset.mem_insert_self _ _, rfl⟩

theorem rate_limit_preserves_project_witness :
    "p" ∈ (insert "p" (({"p"} : Finset String).erase "p")) ∧
      (100 - 50 + 10 : Int) = 100 - 50 + 10 :=
  rate_limit_preserves_project ⟨false, false, false, false, false⟩ {"p"} emptyBase none "p"
    (.error .rateLimit) 100 50 (insert "p" (({"p"} : Finset String).erase "p")) emptyBase none
    (100 - 50 + 10) (by decide)

/-- C10: with `go_recursive = true` and `ignore_forkers = true` (all other
flags default), an iteration whose stages complete without a rate-limit
exception reaches the frontier-update step with the local variable
`forked_projects` still unbound (the forkers stage that would assign it was
skipped) and crashes with `NameError` instead of finishing the repository. -/
theorem recursive_without_forkers_name_error (projects0 : Finset String)
    (db : DeveloperBase) (project : String) (repo : Repository) (reset_time now : Int)
    (h1 : (db.add_contributors repo).out = .ok ())
    (h2 : ((db.add_contributors repo).db.add_stargazers repo).out = .ok ()) :
    loopIter ⟨true, false, true, false, false⟩ projects0 db none project (.ok repo)
        reset_time now =
      .crashed .nameError ((db.add_contributors repo).db.add_stargazers repo).db := by
  simp only [loopIter, Bool.false_eq_true, if_false, if_true, h1, h2]

theorem recursive_without_forkers_name_error_witness :
    loopIter ⟨true, false, true, false, false⟩ {"r/n"} emptyBase none "r/n"
        (.ok ⟨"r/n", [], [], []⟩) 0 0 =
      .crashed .nameError
        ((emptyBase.add_contributors ⟨"r/n", [], [], []⟩).db.add_stargazers
            ⟨"r/n", [], [], []⟩).db :=
  recursive_without_forkers_name_error {"r/n"} emptyBase "r/n" ⟨"r/n", [], [], []⟩ 0 0
    (by decide) (by decide)

/-- A user whose profile carries the empty string as email. -/
def userEve : NamedUser := ⟨"eve", some ⟨none, none, some "", none, none, none, none⟩⟩

/-- C7, counterexample: with the email-exclusion flag set, a record whose
email is the empty string is still in the ranked output — `pd.isna("")` is
false, so the filter at `github_crawler.py:143` only removes absent
(`None`/`NaN`) emails, not empty ones. The claimed "zero records whose email
is empty or absent" fails. -/
theorem rank_empty_email_retained_cex :
    ((emptyBase.add userEve ∅ ∅ ∅).rank_developers 5 2 1 true).map
        (fun p => p.2.1.email) = [some ""] := by
  decide

/-- C7, amended: with the email-exclusion flag set, the ranked output
contains zero records whose email is absent (`None`/`NaN`); records whose
email is present but empty are retained. -/
theorem rank_excludes_absent_email (db : DeveloperBase) (sc sf ss : Int) (p : RankedRow)
    (hp : p ∈ db.rank_developers sc sf ss true) : p.2.1.email ≠ none := by
  unfold DeveloperBase.rank_developers at hp
  rw [mem_sortDesc] at hp
  simp only [if_true] at hp
  rcases List.mem_map.mp hp with ⟨q, hq, rfl⟩
  intro hc
  have hf := (List.mem_filter.mp hq).2
  simp only [isna] at hf
  rw [hc] at hf
  cases hf

/-- A user with a present, non-empty email. -/
def userBob : NamedUser :=
  ⟨"bob", some ⟨none, none, some "bob@example.org", none, none, none, none⟩⟩

def bobBase : DeveloperBase := emptyBase.add userBob ∅ ∅ ∅

def bobRow : RankedRow :=
  ("bob", updateSets (freshRecord "bob" ⟨none, none, some "bob@example.org", none, none,
    none, none⟩) ∅ ∅ ∅, 0)

theorem rank_excludes_absent_email_witness :
    bobRow ∈ bobBase.rank_developers 5 2 1 true ∧ bobRow.2.1.email ≠ none :=
  ⟨by decide, rank_excludes_absent_email bobBase 5 2 1 bobRow (by decide)⟩

/-- A one-row gazetteer whose `city` differs from its `city_ascii`
(as diacritic city names do in the real worldcities table). -/
def gazMismatch : List CityRow := prepGazetteer [⟨"newtown", "new-town", "germany"⟩]

/-- C9, counterexample: on input `"newtown"` no token matches a country and
one token matches a city, yet the returned country list is empty — the
fallback looks the matched cities' ASCII names (`"new-town"`) up in the
`city` column, where they do not occur. The claimed non-empty list of the
matched cities' countries (`["germany"]`) is not returned. -/
theorem geo_city_fallback_cex :
    countryMatchRows gazMismatch (splitLocs "newtown") = [] ∧
      cityMatchRows gazMismatch (splitLocs "newtown") =
        [⟨"newtown", "new-town", "germany"⟩] ∧
      parse_location gazMismatch (some "newtown") = ([], ["new-town"]) :=
  ⟨by decide, by decide, by decide⟩

/-- C9, amended: when no token matches a country and some token matches a
city, the returned country list is derived from the gazetteer rows whose
`city` name occurs among the matched cities' ASCII names; under the proviso
that every gazetteer row has `city = city_ascii`, this list is exactly the
gazetteer countries of the matched cities and is non-empty. -/
theorem geo_city_fallback (df : List CityRow) (location : String)
    (hascii : ∀ r ∈ df, r.city = r.city_ascii)
    (hnoc : countryMatchRows df (splitLocs location) = [])
    (hcity : cityMatchRows df (splitLocs location) ≠ []) :
    (parse_location df (some location)).1 =
        uniqueList ((cityMatchRows df (splitLocs location)).map (fun r => r.country)) ∧
      (parse_location df (some location)).1 ≠ [] := by
  have hfe :
      df.filter
          (fun r =>
            decide
              (r.city ∈
                uniqueList
                  ((cityMatchRows df (splitLocs location)).map (fun r => r.city_ascii)))) =
        cityMatchRows df (splitLocs location) := by
    apply List.filter_congr
    intro r hr
    apply decide_eq_decide.mpr
    constructor
    · intro hin
      rcases List.mem_map.mp ((mem_uniqueList _ _).mp hin) with ⟨r2, hr2M, hr2eq⟩
      have hr2df := List.mem_filter.mp hr2M
      have hr2loc : r2.city ∈ splitLocs location := of_decide_eq_true hr2df.2
      rwa [← hr2eq, ← hascii r2 hr2df.1]
    · intro hin
      have hrM : r ∈ cityMatchRows df (splitLocs location) :=
        List.mem_filter.mpr ⟨hr, decide_eq_true hin⟩
      exact (mem_uniqueList _ _).mpr
        (List.mem_map.mpr ⟨r, hrM, (hascii r hr).symm⟩)
  have hcond :
      (uniqueList ((countryMatchRows df (splitLocs location)).map (fun r => r.country))).length =
          0 ∧
        0 <
          (uniqueList
              ((cityMatchRows df (splitLocs location)).map (fun r => r.city_ascii))).length := by
    constructor
    · rw [hnoc]
      rfl
    · rw [List.length_pos]
      intro hnil
      exact hcity (List.map_eq_nil_iff.mp ((uniqueList_nil_iff _).mp hnil))
  constructor
  · simp only [parse_location]
    rw [if_pos hcond, hfe]
  · simp only [parse_location]
    rw [if_pos hcond, hfe]
    intro hnil
    exact hcity (List.map_eq_nil_iff.mp ((uniqueList_nil_iff _).mp hnil))

/-- A one-row gazetteer with `city = city_ascii`. -/
def gazBerlin : List CityRow := prepGazetteer [⟨"Berlin", "Berlin", "Germany"⟩]

theorem geo_city_fallback_witness :
    (parse_location gazBerlin (some "Berlin, Atlantis")).1 =
        uniqueList
          ((cityMatchRows gazBerlin (splitLocs "Berlin, Atlantis")).map (fun r => r.country)) ∧
      (parse_location gazBerlin (some "Berlin, Atlantis")).1 ≠ [] :=
  geo_city_fallback gazBerlin "Berlin, Atlantis" (by decide) (by decide) (by decide)

/-- C8: the per-request pacing delay is zero when `ignore_rate_limiting` is
set, and `1.01 * n_requests_total / 3600` seconds otherwise. -/
theorem pacing_delay_formula (n_requests_total : ℚ) :
    find_developers_dt true n_requests_total = 0 ∧
      find_developers_dt false n_requests_total = 101 / 100 * n_requests_total / 3600 := by
  constructor
  · norm_num [find_developers_dt]
  · norm_num [find_developers_dt]
